import Mathlib

/-!
Verification of the lock/retry subsystem of this repository:
the retry engine in `src/util/LockUtils.ts` (`retryFunctionUntil`,
`toRetryOnError`, `toRetryOnBoolean`, `setJitterTimeout`) and the
`FileSystemResourceLocker` in `src/util/locking/FileSystemResourceLocker.ts`
(`acquire`, `release`, `finalize`, `stopOnError`).

The embedding is shallow: promises that resolve or reject become
`Except ErrorJS JSValue`; the asynchronous retry loop becomes a fuel-indexed
recursion whose result also reports how many times the wrapped function was
invoked; `Math.random()` becomes an explicit rational draw `r` with
`0 ≤ r < 1`.
-/

/-- A JavaScript runtime value, as far as the retry engine inspects one:
the engine only tests truthiness and strict equality against a boolean. -/
inductive JSValue where
  | undef
  | bool (b : Bool)
  | num (n : Int)
  | str (s : String)
  | obj (tag : String)
  deriving DecidableEq, Repr

/-- JavaScript truthiness of a value. -/
def JSValue.truthy : JSValue → Bool
  | .undef => false
  | .bool b => b
  | .num n => n != 0
  | .str s => s != ""
  | .obj _ => true

/-- JavaScript strict equality `v === b` between a runtime value and a
boolean literal: only a boolean with the same value compares equal. -/
def strictEqBool (v : JSValue) (b : Bool) : Bool :=
  match v with
  | .bool b2 => b2 == b
  | _ => false

/-- A JavaScript error as the locker inspects it: an optional `code`
property (present on coded filesystem errors) and a `message`. -/
structure ErrorJS where
  code : Option String
  message : String
  deriving DecidableEq, Repr

/-- `isCodedError` from FileSystemResourceLocker.ts: the error is an object
with a `code` property. -/
def isCodedError (err : ErrorJS) : Bool :=
  err.code.isSome

/-- `stopOnError` from FileSystemResourceLocker.ts: the error is coded and
its code strictly equals the string ENOTACQUIRED. -/
def stopOnError (err : ErrorJS) : Bool :=
  isCodedError err && err.code == some "ENOTACQUIRED"

/-- Modelled from the spec: the underlying lock primitive (proper-lockfile,
not part of this excerpt) rejects `lock` with one specific code meaning
"already held by another caller", distinguishable from other errors; that
code is `ELOCKED`, and it is distinct from the `ENOTACQUIRED` code that
`unlock` uses for "not currently held". -/
def signalsAlreadyHeld (err : ErrorJS) : Bool :=
  err.code == some "ELOCKED"

/-- `createErrorMessage` from ErrorUtil.ts, restricted to actual `Error`
values (every rejection modelled here is one): returns the message. -/
def createErrorMessage (err : ErrorJS) : String :=
  err.message

/-- `LockRequestState` from LockUtils.ts. `response` and `error` are
optional fields, absent (`undefined`) when the adapter did not set them. -/
structure LockRequestState where
  shouldRetry : Bool
  response : Option JSValue
  error : Option ErrorJS
  deriving DecidableEq, Repr

/-- The retry loop treats an attempt state with `shouldRetry = false` and a
(truthy, hence present) `error` by throwing that error: a terminal outcome. -/
def LockRequestState.isTerminal (st : LockRequestState) : Prop :=
  st.shouldRetry = false ∧ st.error.isSome = true

/-- An attempt state the retry loop will retry. -/
def LockRequestState.isRetryable (st : LockRequestState) : Prop :=
  st.shouldRetry = true

/-- `toRetryOnError` from LockUtils.ts, applied to the outcome of one raw
call: a resolved value gives `{ shouldRetry: false, response }`; a rejected
error gives `{ shouldRetry: !stopCondition(err), error: err }`. -/
def toRetryOnError (stopCondition : ErrorJS → Bool) :
    Except ErrorJS JSValue → LockRequestState
  | .ok response => ⟨false, some response, none⟩
  | .error err => ⟨!stopCondition err, none, some err⟩

/-- `toRetryOnBoolean` from LockUtils.ts, applied to the outcome of one raw
call: a resolved value gives `{ shouldRetry: response === retryValue,
response }`; a rejected error gives `{ shouldRetry: false, error: err }`. -/
def toRetryOnBoolean (retryValue : Bool) :
    Except ErrorJS JSValue → LockRequestState
  | .ok response => ⟨strictEqBool response retryValue, some response, none⟩
  | .error err => ⟨false, none, some err⟩

/-- `AttemptSettings` from LockUtils.ts, with all fields resolved. -/
structure AttemptSettings where
  retryCount : Int
  retryDelay : Int
  retryJitter : Int
  deriving DecidableEq, Repr

/-- `attemptDefaults` from FileSystemResourceLocker.ts. -/
def attemptDefaults : AttemptSettings := ⟨-1, 50, 30⟩

/-- `maxTries = retryCount === -1 ? Number.POSITIVE_INFINITY : retryCount + 1`;
`none` stands for positive infinity. -/
def maxTriesOf (retryCount : Int) : Option Int :=
  if retryCount = -1 then none else some (retryCount + 1)

/-- The loop guard `tries <= maxTries`; every number is below infinity. -/
def withinMax (tries : Nat) (mx : Option Int) : Bool :=
  match mx with
  | none => true
  | some m => decide ((tries : Int) ≤ m)

/-- Message of the budget-exhausted `InternalServerError` thrown by
`retryFunctionUntil`; `maxTries` prints as `Infinity` when unbounded. -/
def budgetMessage (mx : Option Int) : String :=
  "The operation did not succeed after the set maximum of tries (" ++
    (match mx with
     | none => "Infinity"
     | some m => toString m) ++ ")."

/-- The budget-exhausted error itself: an `InternalServerError`, which
carries no filesystem `code` property. -/
def budgetError (mx : Option Int) : ErrorJS :=
  ⟨none, budgetMessage mx⟩

/-- What `retryFunctionUntil` does once the `while` guard fails:
`if (tries > maxTries) throw budget error; return undefined`. The second
component of each result records how many attempts were performed. -/
def retryExit (mx : Option Int) (tries calls : Nat) :
    Option (Except ErrorJS JSValue × Nat) :=
  if !withinMax tries mx then some (Except.error (budgetError mx), calls)
  else some (Except.ok JSValue.undef, calls)

/-- The `while` loop of `retryFunctionUntil`. `fn i` is the state produced
by the `(i+1)`-th invocation of the attempt function; `tries` is the loop
counter of the source (starting at 1, incremented only on a retry);
`calls` counts invocations performed so far. `fuel` bounds the recursion:
`none` means the fuel ran out before the loop settled (the sleep between
retries only delays, it never changes the result, so it is not modelled). -/
def retryAux (fn : Nat → LockRequestState) (mx : Option Int) :
    Nat → Nat → LockRequestState → Nat → Option (Except ErrorJS JSValue × Nat)
  | 0, tries, st, calls =>
      if st.shouldRetry && withinMax tries mx then none
      else retryExit mx tries calls
  | fuel + 1, tries, st, calls =>
      if st.shouldRetry && withinMax tries mx then
        let st2 := fn calls
        if st2.shouldRetry then
          retryAux fn mx fuel (tries + 1) st2 (calls + 1)
        else
          match st2.error with
          | some e => some (Except.error e, calls + 1)
          | none =>
            match st2.response with
            | some v =>
                if v.truthy then some (Except.ok v, calls + 1)
                else retryAux fn mx fuel tries st2 (calls + 1)
            | none => retryAux fn mx fuel tries st2 (calls + 1)
      else retryExit mx tries calls

/-- `retryFunctionUntil` from LockUtils.ts: starts with
`tries = 1` and `state = { shouldRetry: true }`. -/
def retryFunctionUntil (fn : Nat → LockRequestState)
    (settings : AttemptSettings) (fuel : Nat) :
    Option (Except ErrorJS JSValue × Nat) :=
  retryAux fn (maxTriesOf settings.retryCount) fuel 1 ⟨true, none, none⟩ 0

/-- `FileSystemResourceLocker.acquire`: runs the raw `lock` calls (given
here as the outcome sequence `raw`) through `toRetryOnError` with
`stopOnError`, then wraps any failure in an `InternalServerError` naming
the resource path. -/
def acquire (path : String) (raw : Nat → Except ErrorJS JSValue)
    (settings : AttemptSettings) (fuel : Nat) :
    Option (Except ErrorJS JSValue × Nat) :=
  match retryFunctionUntil (fun i => toRetryOnError stopOnError (raw i)) settings fuel with
  | none => none
  | some (.ok _, n) => some (Except.ok JSValue.undef, n)
  | some (.error e, n) =>
      some (Except.error ⟨none,
        "Error trying to acquire lock for " ++ path ++ ". " ++ createErrorMessage e⟩, n)

/-- `FileSystemResourceLocker.release`: same shape as `acquire` over the raw
`unlock` calls (the source template has two spaces after the period). -/
def release (path : String) (raw : Nat → Except ErrorJS JSValue)
    (settings : AttemptSettings) (fuel : Nat) :
    Option (Except ErrorJS JSValue × Nat) :=
  match retryFunctionUntil (fun i => toRetryOnError stopOnError (raw i)) settings fuel with
  | none => none
  | some (.ok _, n) => some (Except.ok JSValue.undef, n)
  | some (.error e, n) =>
      some (Except.error ⟨none,
        "Error trying to release lock for " ++ path ++ ".  " ++ createErrorMessage e⟩, n)

/-- The jitter amount computed inside `calcTime` of `setJitterTimeout`:
`jitter = jitter > 0 ? Math.max(1, Math.floor(Math.random() * jitter)) : 0`,
with the random draw `r` made explicit (`Math.random()` yields `0 ≤ r < 1`). -/
def jitterAmount (jitter : Int) (r : ℚ) : Int :=
  if jitter > 0 then max 1 ⌊r * (jitter : ℚ)⌋ else 0

/-- `calcTime` of `setJitterTimeout`: `Math.max(0, delay + jitter)`; this is
the duration handed to `setTimeout`. -/
def calcTime (delay jitter : Int) (r : ℚ) : Int :=
  max 0 (delay + jitterAmount jitter r)

/-- One `rmdir` per entry of the `readdir` snapshot, in order, applied to
the directory contents (`List.erase` removes the named entry). -/
def rmdirAll (entries : List String) (contents : List String) : List String :=
  match entries with
  | [] => contents
  | e :: rest => rmdirAll rest (contents.erase e)

/-- `FileSystemResourceLocker.finalize`. The lock folder is modelled as
`none` when absent and `some contents` when present; entries are the empty
lock directories proper-lockfile leaves behind, so removing one succeeds
(per-entry I/O faults are outside this model, as the spec notes in its open
question). The final `rmdir` of the folder itself succeeds only if the
folder is empty by then. Returns the operation outcome and the new state
of the folder. -/
def finalize (folder : Option (List String)) :
    Except ErrorJS Unit × Option (List String) :=
  match folder with
  | none => (Except.ok (), none)
  | some contents =>
      let remaining := rmdirAll contents contents
      if remaining.isEmpty then (Except.ok (), none)
      else (Except.error ⟨some "ENOTEMPTY", "directory not empty"⟩, some remaining)

/-- Executable check that `needle` occurs at the start of `hay`. -/
def leadsWith : List Char → List Char → Bool
  | [], _ => true
  | _ :: _, [] => false
  | a :: as, b :: bs => a == b && leadsWith as bs

/-- Executable check that `needle` occurs somewhere inside `hay`; used to
state that an error message does (or does not) wrap another message. -/
def occursIn (needle : List Char) (hay : List Char) : Bool :=
  match hay with
  | [] => needle.isEmpty
  | _ :: t => leadsWith needle hay || occursIn needle t

/-! ### Helper lemmas about the retry loop -/

lemma withinMax_mono {t t2 : Nat} {mx : Option Int} (h : t ≤ t2)
    (hw : withinMax t2 mx = true) : withinMax t mx = true := by
  cases mx with
  | none => rfl
  | some m =>
    simp only [withinMax, decide_eq_true_eq] at hw ⊢
    omega

lemma retryAux_stop (fn : Nat → LockRequestState) (mx : Option Int)
    (fuel tries calls : Nat) (st : LockRequestState)
    (hst : st.shouldRetry = false) :
    retryAux fn mx fuel tries st calls = retryExit mx tries calls := by
  cases fuel <;> simp [retryAux, hst]

lemma retryAux_over (fn : Nat → LockRequestState) (mx : Option Int)
    (fuel tries calls : Nat) (st : LockRequestState)
    (hwm : withinMax tries mx = false) :
    retryAux fn mx fuel tries st calls = retryExit mx tries calls := by
  cases fuel <;> simp [retryAux, hwm]

lemma retryAux_success (fn : Nat → LockRequestState) (mx : Option Int) (v : JSValue) :
    ∀ (m fuel tries calls : Nat) (st : LockRequestState),
      st.shouldRetry = true →
      (∀ i, i < m → (fn (calls + i)).shouldRetry = true) →
      fn (calls + m) = ⟨false, some v, none⟩ →
      withinMax (tries + m) mx = true →
      m + 1 ≤ fuel →
      retryAux fn mx fuel tries st calls =
        some (if v.truthy then Except.ok v else Except.ok JSValue.undef,
          calls + m + 1) := by
  intro m
  induction m with
  | zero =>
    intro fuel tries calls st hst _ hsucc hwm hfuel
    match fuel, hfuel with
    | fuel + 1, _ =>
      rw [Nat.add_zero] at hsucc hwm
      rw [retryAux]
      simp only [hst, hwm, Bool.and_self, if_true, hsucc]
      by_cases hv : v.truthy
      · simp [hv]
      · simp only [Bool.not_eq_true] at hv
        simp only [hv, Bool.false_eq_true, if_false]
        rw [retryAux_stop fn mx fuel tries (calls + 1) _ rfl]
        simp [retryExit, hwm, hv]
  | succ m ih =>
    intro fuel tries calls st hst hpre hsucc hwm hfuel
    match fuel, hfuel with
    | fuel + 1, hfuel =>
      have hwt : withinMax tries mx = true :=
        withinMax_mono (Nat.le_add_right tries (m + 1)) hwm
      have h0 : (fn calls).shouldRetry = true := by
        have h := hpre 0 (Nat.succ_pos m)
        simpa using h
      rw [retryAux]
      simp only [hst, hwt, Bool.and_self, if_true, h0]
      have hpre2 : ∀ i, i < m → (fn (calls + 1 + i)).shouldRetry = true := by
        intro i hi
        have h := hpre (i + 1) (by omega)
        have heq : calls + (i + 1) = calls + 1 + i := by omega
        rwa [heq] at h
      have hsucc2 : fn (calls + 1 + m) = ⟨false, some v, none⟩ := by
        have heq : calls + (m + 1) = calls + 1 + m := by omega
        rwa [heq] at hsucc
      have hwm2 : withinMax (tries + 1 + m) mx = true := by
        have heq : tries + (m + 1) = tries + 1 + m := by omega
        rwa [heq] at hwm
      have hres := ih fuel (tries + 1) (calls + 1) (fn calls) h0 hpre2 hsucc2 hwm2
        (by omega)
      rw [hres]
      congr 2
      omega

lemma retryAux_exhaust (fn : Nat → LockRequestState) (M : Int)
    (hfn : ∀ i, (fn i).shouldRetry = true) :
    ∀ (n fuel tries calls : Nat) (st : LockRequestState),
      st.shouldRetry = true →
      (tries : Int) + n = M + 1 →
      n ≤ fuel →
      retryAux fn (some M) fuel tries st calls =
        some (Except.error (budgetError (some M)), calls + n) := by
  intro n
  induction n with
  | zero =>
    intro fuel tries calls st hst htr _
    have hwm : withinMax tries (some M) = false := by
      simp only [withinMax, decide_eq_false_iff_not, not_le]
      omega
    rw [retryAux_over fn (some M) fuel tries calls st hwm]
    simp [retryExit, hwm]
  | succ n ih =>
    intro fuel tries calls st hst htr hfuel
    match fuel, hfuel with
    | fuel + 1, hfuel =>
      have hwm : withinMax tries (some M) = true := by
        simp only [withinMax, decide_eq_true_eq]
        omega
      rw [retryAux]
      simp only [hst, hwm, Bool.and_self, if_true, hfn calls]
      have hres := ih fuel (tries + 1) (calls + 1) (fn calls) (hfn calls)
        (by push_cast at htr ⊢; omega) (by omega)
      rw [hres]
      congr 2
      omega

lemma retryAux_terminal (fn : Nat → LockRequestState) (mx : Option Int) (e : ErrorJS) :
    ∀ (m fuel tries calls : Nat) (st : LockRequestState),
      st.shouldRetry = true →
      (∀ i, i < m → (fn (calls + i)).shouldRetry = true) →
      (fn (calls + m)).shouldRetry = false →
      (fn (calls + m)).error = some e →
      withinMax (tries + m) mx = true →
      m + 1 ≤ fuel →
      retryAux fn mx fuel tries st calls = some (Except.error e, calls + m + 1) := by
  intro m
  induction m with
  | zero =>
    intro fuel tries calls st hst _ hsr herr hwm hfuel
    match fuel, hfuel with
    | fuel + 1, _ =>
      rw [Nat.add_zero] at hsr herr hwm
      rw [retryAux]
      simp only [hst, hwm, Bool.and_self, if_true, hsr, Bool.false_eq_true, if_false,
        herr]
  | succ m ih =>
    intro fuel tries calls st hst hpre hsr herr hwm hfuel
    match fuel, hfuel with
    | fuel + 1, hfuel =>
      have hwt : withinMax tries mx = true :=
        withinMax_mono (Nat.le_add_right tries (m + 1)) hwm
      have h0 : (fn calls).shouldRetry = true := by
        have h := hpre 0 (Nat.succ_pos m)
        simpa using h
      rw [retryAux]
      simp only [hst, hwt, Bool.and_self, if_true, h0]
      have hpre2 : ∀ i, i < m → (fn (calls + 1 + i)).shouldRetry = true := by
        intro i hi
        have h := hpre (i + 1) (by omega)
        have heq : calls + (i + 1) = calls + 1 + i := by omega
        rwa [heq] at h
      have heq : calls + (m + 1) = calls + 1 + m := by omega
      rw [heq] at hsr herr
      have hwm2 : withinMax (tries + 1 + m) mx = true := by
        have heq2 : tries + (m + 1) = tries + 1 + m := by omega
        rwa [heq2] at hwm
      have hres := ih fuel (tries + 1) (calls + 1) (fn calls) h0 hpre2 hsr herr hwm2
        (by omega)
      rw [hres]
      congr 2
      omega

lemma rmdirAll_self : ∀ l : List String, rmdirAll l l = [] := by
  intro l
  induction l with
  | nil => rfl
  | cons a t ih =>
    rw [rmdirAll, List.erase_cons_head]
    exact ih

lemma retryFunctionUntil_terminal_first (fn : Nat → LockRequestState) (e : ErrorJS)
    (settings : AttemptSettings) (fuel : Nat)
    (h0r : (fn 0).shouldRetry = false) (h0e : (fn 0).error = some e)
    (hbudget : withinMax 1 (maxTriesOf settings.retryCount) = true)
    (hfuel : 1 ≤ fuel) :
    retryFunctionUntil fn settings fuel = some (Except.error e, 1) := by
  unfold retryFunctionUntil
  have h := retryAux_terminal fn (maxTriesOf settings.retryCount) e 0 fuel 1 0
    ⟨true, none, none⟩ rfl (fun i hi => absurd hi (Nat.not_lt_zero i))
    (by simpa using h0r) (by simpa using h0e) (by simpa using hbudget) hfuel
  simpa using h

lemma jitterAmount_bounds (c : Int) (r : ℚ) (hc : 0 < c) (hr1 : r < 1) :
    1 ≤ jitterAmount c r ∧ jitterAmount c r ≤ max 1 (c - 1) := by
  unfold jitterAmount
  rw [if_pos hc]
  refine ⟨le_max_left 1 _, ?_⟩
  have hcq : (0 : ℚ) < (c : ℚ) := by exact_mod_cast hc
  have hlt : r * (c : ℚ) < ((c : Int) : ℚ) := by
    nlinarith
  have hfl : ⌊r * (c : ℚ)⌋ < c := Int.floor_lt.mpr hlt
  exact max_le_max le_rfl (by omega)

lemma jitterAmount_attains (c u : Int) (hc : 0 < c) (hu1 : 1 ≤ u)
    (hu2 : u ≤ max 1 (c - 1)) :
    ∃ r : ℚ, 0 ≤ r ∧ r < 1 ∧ jitterAmount c r = u := by
  by_cases hcu : u < c
  · refine ⟨(u : ℚ) / (c : ℚ), ?_, ?_, ?_⟩
    · apply div_nonneg
      · exact_mod_cast le_trans zero_le_one hu1
      · exact_mod_cast le_of_lt hc
    · rw [div_lt_one (by exact_mod_cast hc)]
      exact_mod_cast hcu
    · unfold jitterAmount
      rw [if_pos hc]
      have hcne : ((c : ℚ)) ≠ 0 := by
        have : (0 : ℚ) < (c : ℚ) := by exact_mod_cast hc
        exact ne_of_gt this
      rw [div_mul_cancel₀ _ hcne]
      rw [Int.floor_intCast]
      omega
  · have hcu2 : c = 1 ∧ u = 1 := by
      rcases max_choice 1 (c - 1) with h | h <;> rw [h] at hu2 <;> omega
    refine ⟨0, le_refl 0, by norm_num, ?_⟩
    rw [hcu2.1, hcu2.2]
    unfold jitterAmount
    norm_num

lemma stopOnError_eq_true (e : ErrorJS) :
    stopOnError e = true ↔ e.code = some "ENOTACQUIRED" := by
  unfold stopOnError isCodedError
  cases hc : e.code with
  | none => simp
  | some c => simp

/-- Claim C1 (counterexample): an error whose code signals "already held
by another caller" is classified retryable, not terminal, by the stop
predicate that acquire hands to the by-error adapter, so the claimed
equivalence fails at this rejection. -/
theorem c1_counterexample :
    signalsAlreadyHeld ⟨some "ELOCKED", "Lock file is already being held"⟩ = true ∧
    ¬ (toRetryOnError stopOnError
        (Except.error ⟨some "ELOCKED", "Lock file is already being held"⟩)).isTerminal := by
  refine ⟨rfl, ?_⟩
  rintro ⟨h1, _⟩
  have h2 : (toRetryOnError stopOnError
      (Except.error ⟨some "ELOCKED", "Lock file is already being held"⟩)).shouldRetry
        = true := by decide
  rw [h2] at h1
  exact Bool.noConfusion h1

/-- Claim C1 (amended): for acquire, a rejected attempt is terminal if and
only if the code of the error is ENOTACQUIRED (the not-currently-held
signal of the primitive); in particular an already-held rejection is
retryable. -/
theorem c1_amended (e : ErrorJS) :
    (toRetryOnError stopOnError (Except.error e)).isTerminal ↔
      e.code = some "ENOTACQUIRED" := by
  rw [show toRetryOnError stopOnError (Except.error e) =
      ⟨!stopOnError e, none, some e⟩ from rfl]
  unfold LockRequestState.isTerminal
  rw [← stopOnError_eq_true e]
  simp

/-- Claim C2 (counterexample): an attempt succeeding on the first
invocation with the value false makes retryFunctionUntil resolve with
undefined instead of that value: the claim fails for falsy success
values. -/
theorem c2_counterexample :
    retryFunctionUntil (fun _ => ⟨false, some (JSValue.bool false), none⟩)
        ⟨-1, 50, 30⟩ 1 =
      some (Except.ok JSValue.undef, 1) ∧
    (Except.ok JSValue.undef : Except ErrorJS JSValue) ≠
      Except.ok (JSValue.bool false) := by
  refine ⟨rfl, ?_⟩
  intro h
  injection h with h2
  exact JSValue.noConfusion h2

/-- Claim C2 (amended): if the attempt at zero-based index k yields a
success outcome carrying v, all earlier invocations being retryable and
the budget allowing try k + 1, then retryFunctionUntil stops right after
that invocation, performing no further attempts, and returns v when v is
truthy, but resolves with undefined instead when v is falsy. -/
theorem c2_amended (fn : Nat → LockRequestState) (settings : AttemptSettings)
    (k fuel : Nat) (v : JSValue)
    (hpre : ∀ i, i < k → (fn i).shouldRetry = true)
    (hsucc : fn k = ⟨false, some v, none⟩)
    (hbudget : withinMax (1 + k) (maxTriesOf settings.retryCount) = true)
    (hfuel : k + 1 ≤ fuel) :
    retryFunctionUntil fn settings fuel =
      some (if v.truthy then Except.ok v else Except.ok JSValue.undef, k + 1) := by
  unfold retryFunctionUntil
  have h := retryAux_success fn (maxTriesOf settings.retryCount) v k fuel 1 0
    ⟨true, none, none⟩ rfl (by simpa using hpre) (by simpa using hsucc)
    (by simpa using hbudget) hfuel
  simpa using h

theorem c2_witness :
    retryFunctionUntil (fun _ => ⟨false, some (JSValue.bool true), none⟩)
        ⟨-1, 50, 30⟩ 1 =
      some (Except.ok (JSValue.bool true), 1) := by
  have h := c2_amended (fun _ => ⟨false, some (JSValue.bool true), none⟩)
    ⟨-1, 50, 30⟩ 0 1 (JSValue.bool true)
    (fun i hi => absurd hi (Nat.not_lt_zero i)) rfl (by decide) (le_refl 1)
  simpa using h

/-- Claim C3: with retryCount k ≥ 0 and an attempt that classifies
retryable on every invocation, retryFunctionUntil performs exactly k + 1
attempts and then fails with the budget-exhausted error. -/
theorem c3_budget_exhausted (fn : Nat → LockRequestState) (k : Nat)
    (settings : AttemptSettings) (fuel : Nat)
    (hk : settings.retryCount = (k : Int))
    (hfn : ∀ i, (fn i).shouldRetry = true)
    (hfuel : k + 1 ≤ fuel) :
    retryFunctionUntil fn settings fuel =
      some (Except.error (budgetError (some ((k : Int) + 1))), k + 1) := by
  unfold retryFunctionUntil
  have hmx : maxTriesOf settings.retryCount = some ((k : Int) + 1) := by
    rw [hk]
    unfold maxTriesOf
    rw [if_neg (by omega)]
  rw [hmx]
  have h := retryAux_exhaust fn ((k : Int) + 1) hfn (k + 1) fuel 1 0
    ⟨true, none, none⟩ rfl (by push_cast; omega) hfuel
  simpa using h

theorem c3_witness :
    retryFunctionUntil (fun _ => ⟨true, none, none⟩) ⟨2, 50, 30⟩ 3 =
      some (Except.error (budgetError (some 3)), 3) := by
  have h := c3_budget_exhausted (fun _ => ⟨true, none, none⟩) 2 ⟨2, 50, 30⟩ 3
    (by norm_num) (fun _ => rfl) (by norm_num)
  norm_num at h
  exact h

/-- Claim C4 (counterexample): with base 1000 and jitter ceiling 100 the
computed duration never reaches 1100 for any random draw, so the claimed
attainable offset 100 is not attainable: the floored draw stays strictly
below the ceiling. -/
theorem c4_counterexample :
    ¬ ∃ r : ℚ, 0 ≤ r ∧ r < 1 ∧ calcTime 1000 100 r = 1100 := by
  rintro ⟨r, hr0, hr1, hc⟩
  have hja := (jitterAmount_bounds 100 r (by norm_num) hr1).2
  have hja2 : jitterAmount 100 r ≤ 99 := by
    rw [show max 1 ((100 : Int) - 1) = 99 by norm_num] at hja
    exact hja
  have hle : calcTime 1000 100 r ≤ 1099 := by
    unfold calcTime
    exact max_le (by norm_num) (by omega)
  rw [hc] at hle
  norm_num at hle

/-- Claim C4 (amended): the computed duration is base plus U where U = 0
when the jitter ceiling c ≤ 0 (so jitteredDelay 1000 0 waits exactly
1000 ms), and when c > 0, U ranges over exactly the integers from 1 to
max 1 (c - 1): every draw lands in that range and every value in it is
attained by some draw; consequently jitteredDelay 1000 100 waits within
1000 to 1100 ms, with exactly the offsets 1 to 99 attainable. -/
theorem c4_amended :
    (∀ r : ℚ, calcTime 1000 0 r = 1000) ∧
    (∀ (c : Int) (r : ℚ), c ≤ 0 → jitterAmount c r = 0) ∧
    (∀ (c : Int) (r : ℚ), 0 < c → r < 1 →
      1 ≤ jitterAmount c r ∧ jitterAmount c r ≤ max 1 (c - 1)) ∧
    (∀ c u : Int, 0 < c → 1 ≤ u → u ≤ max 1 (c - 1) →
      ∃ r : ℚ, 0 ≤ r ∧ r < 1 ∧ jitterAmount c r = u) ∧
    (∀ r : ℚ, r < 1 →
      1000 ≤ calcTime 1000 100 r ∧ calcTime 1000 100 r ≤ 1100) := by
  refine ⟨?_, ?_, ?_, ?_, ?_⟩
  · intro r
    unfold calcTime jitterAmount
    norm_num
  · intro c r hc
    unfold jitterAmount
    rw [if_neg (by omega)]
  · intro c r hc hr1
    exact jitterAmount_bounds c r hc hr1
  · intro c u hc hu1 hu2
    exact jitterAmount_attains c u hc hu1 hu2
  · intro r hr1
    have hb := jitterAmount_bounds 100 r (by norm_num) hr1
    have h99 : jitterAmount 100 r ≤ 99 := by
      have := hb.2
      rw [show max 1 ((100 : Int) - 1) = 99 by norm_num] at this
      exact this
    constructor
    · unfold calcTime
      have : (1000 : Int) ≤ 1000 + jitterAmount 100 r := by omega
      exact le_trans this (le_max_right 0 _)
    · unfold calcTime
      exact max_le (by norm_num) (by omega)

theorem c4_witness :
    1 ≤ jitterAmount 100 (1 / 2 : ℚ) ∧
      jitterAmount 100 (1 / 2 : ℚ) ≤ max 1 ((100 : Int) - 1) :=
  c4_amended.2.2.1 100 (1 / 2 : ℚ) (by norm_num) (by norm_num)

lemma retryOnError_exhaust (raw : Nat → Except ErrorJS JSValue)
    (k fuel : Nat) (settings : AttemptSettings)
    (hk : settings.retryCount = (k : Int))
    (hraw : ∀ i, ∃ e, raw i = Except.error e ∧ stopOnError e = false)
    (hfuel : k + 1 ≤ fuel) :
    retryFunctionUntil (fun i => toRetryOnError stopOnError (raw i)) settings fuel =
      some (Except.error (budgetError (some ((k : Int) + 1))), k + 1) := by
  unfold retryFunctionUntil
  have hmx : maxTriesOf settings.retryCount = some ((k : Int) + 1) := by
    rw [hk]
    unfold maxTriesOf
    rw [if_neg (by omega)]
  rw [hmx]
  have hfn : ∀ i, (toRetryOnError stopOnError (raw i)).shouldRetry = true := by
    intro i
    obtain ⟨e, he, hs⟩ := hraw i
    rw [he]
    show (!stopOnError e) = true
    rw [hs]
    rfl
  have h := retryAux_exhaust (fun i => toRetryOnError stopOnError (raw i))
    ((k : Int) + 1) hfn (k + 1) fuel 1 0 ⟨true, none, none⟩ rfl (by omega) hfuel
  simpa using h

/-- Claim C5 (counterexample): acquire and release exhausting a budget of
one try over attempts that reject with the message UNDERLYING-CAUSE-XYZ
each surface an error whose message names the resource path but does not
contain the last underlying cause, so the surfaced error does not wrap
that cause. -/
theorem c5_counterexample :
    acquire "p" (fun _ => Except.error ⟨some "EAGAIN", "UNDERLYING-CAUSE-XYZ"⟩)
        ⟨0, 50, 30⟩ 2 =
      some (Except.error ⟨none,
        "Error trying to acquire lock for p. The operation did not succeed after the set maximum of tries (1)."⟩,
        1) ∧
    release "p" (fun _ => Except.error ⟨some "EAGAIN", "UNDERLYING-CAUSE-XYZ"⟩)
        ⟨0, 50, 30⟩ 2 =
      some (Except.error ⟨none,
        "Error trying to release lock for p.  The operation did not succeed after the set maximum of tries (1)."⟩,
        1) ∧
    occursIn "UNDERLYING-CAUSE-XYZ".data
      "Error trying to acquire lock for p. The operation did not succeed after the set maximum of tries (1).".data
      = false ∧
    occursIn "UNDERLYING-CAUSE-XYZ".data
      "Error trying to release lock for p.  The operation did not succeed after the set maximum of tries (1).".data
      = false ∧
    occursIn "p".data
      "Error trying to acquire lock for p. The operation did not succeed after the set maximum of tries (1).".data
      = true ∧
    occursIn "p".data
      "Error trying to release lock for p.  The operation did not succeed after the set maximum of tries (1).".data
      = true :=
  ⟨rfl, rfl, by decide, by decide, by decide, by decide⟩

/-- Claim C5 (amended): when acquire or release fails because the retry
budget of k retries is exhausted, the single surfaced error wraps the
resource path and the budget-exhausted description naming the maximum
number of tries; the last underlying cause is discarded — the surfaced
error does not depend on the errors the attempts carried. -/
theorem c5_amended (path : String) (raw : Nat → Except ErrorJS JSValue)
    (k fuel : Nat) (settings : AttemptSettings)
    (hk : settings.retryCount = (k : Int))
    (hraw : ∀ i, ∃ e, raw i = Except.error e ∧ stopOnError e = false)
    (hfuel : k + 1 ≤ fuel) :
    acquire path raw settings fuel =
      some (Except.error ⟨none, "Error trying to acquire lock for " ++ path ++ ". " ++
        budgetMessage (some ((k : Int) + 1))⟩, k + 1) ∧
    release path raw settings fuel =
      some (Except.error ⟨none, "Error trying to release lock for " ++ path ++ ".  " ++
        budgetMessage (some ((k : Int) + 1))⟩, k + 1) := by
  have hret := retryOnError_exhaust raw k fuel settings hk hraw hfuel
  constructor
  · unfold acquire
    rw [hret]
    simp [budgetError, createErrorMessage]
  · unfold release
    rw [hret]
    simp [budgetError, createErrorMessage]

theorem c5_witness :
    acquire "p" (fun _ => Except.error ⟨some "EAGAIN", "x"⟩) ⟨0, 50, 30⟩ 1 =
      some (Except.error ⟨none, "Error trying to acquire lock for " ++ "p" ++ ". " ++
        budgetMessage (some 1)⟩, 1) ∧
    release "p" (fun _ => Except.error ⟨some "EAGAIN", "x"⟩) ⟨0, 50, 30⟩ 1 =
      some (Except.error ⟨none, "Error trying to release lock for " ++ "p" ++ ".  " ++
        budgetMessage (some 1)⟩, 1) := by
  have h := c5_amended "p" (fun _ => Except.error ⟨some "EAGAIN", "x"⟩) 0 1 ⟨0, 50, 30⟩
    (by norm_num) (fun i => ⟨⟨some "EAGAIN", "x"⟩, rfl, rfl⟩) (by norm_num)
  norm_num at h
  exact h

/-- Claim C6: the by-error adapter classifies a rejection as terminal
exactly when the stop predicate holds of the rejected error, as retryable
carrying the error otherwise, and any resolution as success carrying the
resolved value; through the retry engine, an attempt that always rejects
with an error matched by the predicate is terminal on the very first call,
with exactly one invocation performed and zero retries. -/
theorem c6_by_error_adapter (p : ErrorJS → Bool) (e : ErrorJS) (v : JSValue)
    (raw : Nat → Except ErrorJS JSValue) (e0 : ErrorJS)
    (settings : AttemptSettings) (fuel : Nat)
    (hraw : ∀ i, raw i = Except.error e0) (hp : p e0 = true)
    (hbudget : withinMax 1 (maxTriesOf settings.retryCount) = true)
    (hfuel : 1 ≤ fuel) :
    ((toRetryOnError p (Except.error e)).isTerminal ↔ p e = true) ∧
    (p e = false → toRetryOnError p (Except.error e) = ⟨true, none, some e⟩) ∧
    toRetryOnError p (Except.ok v) = ⟨false, some v, none⟩ ∧
    retryFunctionUntil (fun i => toRetryOnError p (raw i)) settings fuel =
      some (Except.error e0, 1) := by
  refine ⟨?_, ?_, rfl, ?_⟩
  · rw [show toRetryOnError p (Except.error e) = ⟨!p e, none, some e⟩ from rfl]
    unfold LockRequestState.isTerminal
    simp
  · intro hpe
    rw [show toRetryOnError p (Except.error e) = ⟨!p e, none, some e⟩ from rfl, hpe]
    rfl
  · apply retryFunctionUntil_terminal_first _ e0 settings fuel _ _ hbudget hfuel
    · rw [hraw 0]
      show (!p e0) = false
      rw [hp]
      rfl
    · rw [hraw 0]
      rfl

theorem c6_witness :
    retryFunctionUntil (fun _ => toRetryOnError (fun e2 => e2.code == some "X")
        ((fun _ : Nat => Except.error (α := JSValue) (⟨some "X", "m"⟩ : ErrorJS)) 0))
      attemptDefaults 1 = some (Except.error ⟨some "X", "m"⟩, 1) :=
  (c6_by_error_adapter (fun e2 => e2.code == some "X") ⟨some "X", "m"⟩ JSValue.undef
    (fun _ => Except.error ⟨some "X", "m"⟩) ⟨some "X", "m"⟩ attemptDefaults 1
    (fun _ => rfl) (by decide) rfl (le_refl 1)).2.2.2

/-- Claim C7: the by-boolean adapter classifies a resolution strictly equal
to the configured sentinel as retryable, any other resolution as success
carrying the resolved value, and any rejection as terminal; through the
retry engine a rejecting attempt fails on the very first call, with
exactly one invocation performed, so a rejection is never retried. -/
theorem c7_by_boolean_adapter (s : Bool) (v : JSValue) (e : ErrorJS)
    (raw : Nat → Except ErrorJS JSValue) (e0 : ErrorJS)
    (settings : AttemptSettings) (fuel : Nat)
    (hraw : ∀ i, raw i = Except.error e0)
    (hbudget : withinMax 1 (maxTriesOf settings.retryCount) = true)
    (hfuel : 1 ≤ fuel) :
    (strictEqBool v s = true → (toRetryOnBoolean s (Except.ok v)).isRetryable) ∧
    (strictEqBool v s = false →
      toRetryOnBoolean s (Except.ok v) = ⟨false, some v, none⟩) ∧
    (toRetryOnBoolean s (Except.error e)).isTerminal ∧
    retryFunctionUntil (fun i => toRetryOnBoolean s (raw i)) settings fuel =
      some (Except.error e0, 1) := by
  refine ⟨?_, ?_, ⟨rfl, rfl⟩, ?_⟩
  · intro hv
    show (toRetryOnBoolean s (Except.ok v)).shouldRetry = true
    rw [show toRetryOnBoolean s (Except.ok v) = ⟨strictEqBool v s, some v, none⟩
      from rfl, hv]
  · intro hv
    rw [show toRetryOnBoolean s (Except.ok v) = ⟨strictEqBool v s, some v, none⟩
      from rfl, hv]
  · apply retryFunctionUntil_terminal_first _ e0 settings fuel _ _ hbudget hfuel
    · rw [hraw 0]
      rfl
    · rw [hraw 0]
      rfl

theorem c7_witness :
    retryFunctionUntil (fun _ => toRetryOnBoolean false
        ((fun _ : Nat => Except.error (α := JSValue) (⟨none, "boom"⟩ : ErrorJS)) 0))
      attemptDefaults 1 = some (Except.error ⟨none, "boom"⟩, 1) :=
  (c7_by_boolean_adapter false JSValue.undef ⟨none, "boom"⟩
    (fun _ => Except.error ⟨none, "boom"⟩) ⟨none, "boom"⟩ attemptDefaults 1
    (fun _ => rfl) rfl (le_refl 1)).2.2.2

/-- Claim C8: release over an unlock primitive that rejects with the
not-currently-held code ENOTACQUIRED fails on the very first attempt —
exactly one invocation, no retries — with a wrapped not-acquired error
naming the resource path and carrying the cause message. -/
theorem c8_release_terminal (path msg : String) (settings : AttemptSettings)
    (fuel : Nat)
    (hbudget : withinMax 1 (maxTriesOf settings.retryCount) = true)
    (hfuel : 1 ≤ fuel) :
    release path (fun _ => Except.error ⟨some "ENOTACQUIRED", msg⟩) settings fuel =
      some (Except.error ⟨none,
        "Error trying to release lock for " ++ path ++ ".  " ++ msg⟩, 1) := by
  unfold release
  rw [retryFunctionUntil_terminal_first
    (fun i => toRetryOnError stopOnError
      ((fun _ : Nat => Except.error (α := JSValue) (⟨some "ENOTACQUIRED", msg⟩ : ErrorJS)) i))
    ⟨some "ENOTACQUIRED", msg⟩ settings fuel rfl rfl hbudget hfuel]
  rfl

theorem c8_witness :
    release "q" (fun _ => Except.error ⟨some "ENOTACQUIRED", "not acquired"⟩)
        attemptDefaults 1 =
      some (Except.error ⟨none,
        "Error trying to release lock for " ++ "q" ++ ".  " ++ "not acquired"⟩, 1) :=
  c8_release_terminal "q" "not acquired" attemptDefaults 1 rfl (le_refl 1)

/-- Claim C9: finalize succeeds without error on an absent or empty lock
directory, and on a directory with entries it removes every entry and then
the directory itself; in every case no lock directory is left behind. -/
theorem c9_finalize (folder : Option (List String)) :
    finalize folder = (Except.ok (), none) := by
  cases folder with
  | none => rfl
  | some contents =>
    simp [finalize, rmdirAll_self]

/-- Claim C10: for every delay, jitter ceiling and random draw — including
negative delays — the duration handed to the timer equals
max 0 (delay + jitter amount) and is therefore never negative: no negative
timeout is ever scheduled. -/
theorem c10_timeout_nonneg (delay jitter : Int) (r : ℚ) :
    calcTime delay jitter r = max 0 (delay + jitterAmount jitter r) ∧
    0 ≤ calcTime delay jitter r :=
  ⟨rfl, le_max_left 0 _⟩
